import Mathlib

/-!
Verification development for the cpp-blackmagic hooking / dependency-injection
library.  The definitions below are shallow embeddings of the C++ sources under
`include/cppbm/`: machine addresses are modelled as `Nat` with `0` playing the
role of `nullptr`, type identities (`std::type_index`) as `Nat`, and the
process-wide registries as maps.  Each definition names the C++ entity it
embeds.
-/

namespace CppBM

namespace Hook

/-- Category of the hooked function's return type `R`, as discriminated by the
`if constexpr` chain of `HookDefaultReturn` in `internal/hook/pipeline.h`:
`void`, reference, default-constructible value, or other value type. -/
inductive RetCategory
  | voidT
  | refT
  | defCtorT
  | otherT
deriving DecidableEq, Repr

/-- Outcome of `HookDefaultReturn<R>()`: return normally (void), return a
default-constructed `R{}`, or `std::terminate`. -/
inductive HookDefault
  | retVoid
  | retDefault
  | terminate
deriving DecidableEq, Repr

/-- Embedding of `HookDefaultReturn<R>()` (pipeline.h lines 29-50): void
returns, references terminate, default-constructible types return `R{}`,
all other types terminate. -/
def HookDefaultReturn : RetCategory → HookDefault
  | .voidT => .retVoid
  | .refT => .terminate
  | .defCtorT => .retDefault
  | .otherT => .terminate

/-- Observable events of one `HookPipeline::Dispatch` call: a decorator's
before-phase, the invocation of the original function, a decorator's
after-phase.  Decorator nodes are identified by a `Nat` id. -/
inductive Event
  | before (node : Nat)
  | callOrig
  | after (node : Nat)
deriving DecidableEq, Repr

/-- Result value of one dispatch: either the original function (identified by
its trampoline address) was invoked, or a `HookDefaultReturn` value was
substituted. -/
inductive CallOutcome
  | invoked (orig : Nat)
  | defaulted (d : HookDefault)
deriving DecidableEq, Repr

/-- Embedding of `HookPipeline::CallOriginal` (pipeline.h lines 235-243): when
the stored trampoline is null the default return value is substituted and the
function pointer is never invoked; otherwise the original is invoked. -/
def CallOriginal (original : Nat) (cat : RetCategory) : List Event × CallOutcome :=
  if original = 0 then ([], .defaulted (HookDefaultReturn cat))
  else ([Event.callOrig], .invoked original)

/-- Before-phase loop of `Dispatch` (pipeline.h lines 178-200): walk the chain
in order; each visited node is recorded in `invoked`; the first node whose
`BeforeCallSlot` returns `false` stops the loop with `proceed = false`.
A chain entry is `(node id, before-phase result)`. -/
def runBefore : List (Nat × Bool) → List Nat × Bool
  | [] => ([], true)
  | e :: rest =>
    if e.2 then
      let r := runBefore rest
      (e.1 :: r.1, r.2)
    else ([e.1], false)

/-- Embedding of `HookPipeline::Dispatch` (pipeline.h lines 154-233).  An empty
chain takes the fast path straight to `CallOriginal`.  Otherwise the
before-phase runs over the chain in registration order; if it completed
(`proceed`) the original is called once; finally the after-phase runs over
exactly the invoked nodes in reverse order. -/
def Dispatch (chain : List (Nat × Bool)) (original : Nat) (cat : RetCategory) :
    List Event × CallOutcome :=
  if chain.isEmpty then CallOriginal original cat
  else
    let bp := runBefore chain
    let orig :=
      if bp.2 then CallOriginal original cat
      else ([], CallOutcome.defaulted (HookDefaultReturn cat))
    (bp.1.map Event.before ++ orig.1 ++ (bp.1.reverse.map Event.after), orig.2)

/-- Install state of `HookState<OrigFn>` (internal/hook/state.h): the atomic
`installed_` flag and the stored `original_` trampoline (0 = nullptr). -/
structure HookState where
  installed : Bool
  original : Nat
deriving DecidableEq, Repr

/-- Calls made to the opaque `Hooker` backend capability. -/
inductive BackendOp
  | createHook
  | enableHook
  | removeHook
deriving DecidableEq, Repr

/-- Behaviour of the backend for one install attempt: whether `CreateHook` and
`EnableHook` succeed, and the trampoline address `CreateHook` writes through
its out-parameter on success. -/
structure BackendBehavior where
  createOk : Bool
  enableOk : Bool
  trampoline : Nat
deriving DecidableEq, Repr

/-- Embedding of `HookState::InstallAt` (state.h lines 27-72).  Returns the
new state, the boolean result, and the list of backend calls performed, in
order.  Already-installed states return `true` immediately without touching
the backend; a null target or detour fails before any backend call; a
`CreateHook` failure performs only that call; an `EnableHook` failure after a
successful `CreateHook` performs the compensating `RemoveHook`; on success the
trampoline is stored and `installed_` becomes true. -/
def InstallAt (st : HookState) (target detour : Nat) (bk : BackendBehavior) :
    HookState × Bool × List BackendOp :=
  if st.installed then (st, true, [])
  else if target = 0 ∨ detour = 0 then (st, false, [])
  else if !bk.createOk then (st, false, [.createHook])
  else if !bk.enableOk then (st, false, [.createHook, .enableHook, .removeHook])
  else ({ installed := true, original := bk.trampoline }, true, [.createHook, .enableHook])

/-- One `InstallAt` invocation: its arguments plus the backend behaviour it
would observe. -/
structure InstallCall where
  target : Nat
  detour : Nat
  backend : BackendBehavior
deriving DecidableEq, Repr

/-- Run a sequence of `InstallAt` calls on one `HookState`, collecting each
call's boolean result together with the backend calls it performed. -/
def RunInstalls (st : HookState) : List InstallCall → HookState × List (Bool × List BackendOp)
  | [] => (st, [])
  | c :: rest =>
    let r := InstallAt st c.target c.detour c.backend
    let rr := RunInstalls r.1 rest
    (rr.1, (r.2.1, r.2.2) :: rr.2)

/-- State of one `HookPipeline` (pipeline.h): the private `HookState` base,
the fixed target/detour addresses, the ordered decorator chain (node ids) and
the lazy-layout flag. -/
structure Pipeline where
  state : HookState
  target : Nat
  detour : Nat
  chain : List Nat
  layoutDirty : Bool
deriving DecidableEq, Repr

/-- Embedding of `HookPipeline::UnregisterDecorator` (pipeline.h lines
130-147): remove every chain entry holding this node; mark the layout dirty
only if something was removed; a null node is ignored. -/
def UnregisterDecorator (p : Pipeline) (node : Option Nat) : Pipeline :=
  match node with
  | none => p
  | some n =>
    let newChain := p.chain.filter (fun e => decide (e ≠ n))
    if newChain.length ≠ p.chain.length then
      { p with chain := newChain, layoutDirty := true }
    else p

/-- Embedding of `HookPipeline::RegisterDecorator` (pipeline.h lines 93-128):
a null node fails at once; otherwise the node is appended to the chain unless
already present, then `Core::InstallAt(target_, detour_)` runs; on install
failure the node is unregistered again and `false` is returned. -/
def RegisterDecorator (p : Pipeline) (node : Option Nat) (bk : BackendBehavior) :
    Pipeline × Bool × List BackendOp :=
  match node with
  | none => (p, false, [])
  | some n =>
    let p1 : Pipeline :=
      if p.chain.contains n then p
      else { p with chain := p.chain ++ [n], layoutDirty := true }
    let r := InstallAt p1.state p1.target p1.detour bk
    let p2 := { p1 with state := r.1 }
    if r.2.1 then (p2, true, r.2.2)
    else (UnregisterDecorator p2 (some n), false, r.2.2)

end Hook

namespace Depends

/-- Raw machine address; `0` models `nullptr`. -/
abbrev Addr := Nat

/-- Identity of a C++ type (`std::type_index`) at the pointee/value level. -/
abbrev TyId := Nat

/-- Factory key from `FactoryKeyOf` (`none` models the null key of plain
`Depends()`). -/
abbrev FactoryKey := Option Nat

/-- Target key from `TargetKeyOf` (`none` models the global/`nullptr`
target). -/
abbrev TargetKey := Option Nat

/-- Embedding of `IsDependsPlaceholder<T>` for pointer-typed `T`
(placeholder.h lines 100-116, pointer branch): the argument is a placeholder
iff it equals the stable sentinel produced by `DependsPointerMarker<T>()`.
The sentinel is the address of a `thread_local int` object, passed in here as
`marker`. -/
def IsDependsPlaceholderPtr (marker : Addr) (value : Addr) : Bool :=
  value == marker

/-- Embedding of `IsDependsPlaceholder<T>` for value-typed `T` (neither
pointer nor reference): the `else` branch of placeholder.h lines 100-116
always answers `false`. -/
def IsDependsPlaceholderValue {α : Type} (_value : α) : Bool :=
  false

/-- Type component of an `ExplicitValueKey` / registry entry: the C++ side
keys entries by `std::type_index`, and the types that occur in the explicit
registry are `std::reference_wrapper<T>` and `T*` (registry.h,
`TryPopulateRawSlotFromExplicit` in runtime/context.h lines 576-598). -/
inductive RegTy
  | refWrapOf (ty : TyId)
  | ptrOf (ty : TyId)
deriving DecidableEq, Repr

/-- Embedding of `ExplicitValueKey` (registry.h lines 65-77): target (or null
for global), factory key (or null), stored type. -/
structure ExplicitValueKey where
  target : TargetKey
  factory : FactoryKey
  type : RegTy
deriving DecidableEq, Repr

/-- The explicit value registry table (`ExplicitValueRegistry::table_`),
modelled as a map from keys to the stored address payload (the address held
by the registered `reference_wrapper<T>` or `T*`). -/
def ExplicitValueTable := ExplicitValueKey → Option Addr

/-- Embedding of `ExplicitValueRegistry::Register` (registry.h lines 122-128):
`table_[key] = value`, last write wins. -/
def evRegister (tbl : ExplicitValueTable) (k : ExplicitValueKey) (v : Addr) :
    ExplicitValueTable :=
  fun x => if x = k then some v else tbl x

/-- Embedding of `ExplicitValueRegistry::Remove` (registry.h lines 181-185):
erase the exact key. -/
def evRemove (tbl : ExplicitValueTable) (k : ExplicitValueKey) : ExplicitValueTable :=
  fun x => if x = k then none else tbl x

/-- Embedding of `ExplicitValueRegistry::FindExact` (registry.h lines
167-179). -/
def evFindExact (tbl : ExplicitValueTable) (target : TargetKey) (factory : FactoryKey)
    (type : RegTy) : Option Addr :=
  tbl ⟨target, factory, type⟩

/-- Embedding of `ExplicitValueRegistry::Find` (registry.h lines 130-165):
look up `(target, factory, type)` first; on a miss, and only when `target` is
not already the global null target, fall back to `(global, factory, type)`. -/
def evFind (tbl : ExplicitValueTable) (target : TargetKey) (factory : FactoryKey)
    (type : RegTy) : Option Addr :=
  match tbl ⟨target, factory, type⟩ with
  | some v => some v
  | none => if target ≠ none then tbl ⟨none, factory, type⟩ else none

/-- Saved state of one `ScopedDependencyOverride<U>` (depends.h lines
311-384): its key and the previously registered value captured at
construction (`had_previous_` / `previous_`). -/
structure ScopedDependencyOverride where
  target : TargetKey
  factory : FactoryKey
  type : RegTy
  hadPrevious : Bool
  previous : Option Addr
deriving DecidableEq, Repr

/-- Embedding of the `ScopedDependencyOverride` constructor (depends.h lines
315-326): capture the exact-key previous value, then register the override
value for that key. -/
def overrideInstall (tbl : ExplicitValueTable) (target : TargetKey) (factory : FactoryKey)
    (type : RegTy) (v : Addr) : ExplicitValueTable × ScopedDependencyOverride :=
  let old := evFindExact tbl target factory type
  (evRegister tbl ⟨target, factory, type⟩ v, ⟨target, factory, type, old.isSome, old⟩)

/-- Embedding of `ScopedDependencyOverride::Restore` (depends.h lines
362-377): if a previous value was captured, re-register it; otherwise remove
the entry. -/
def overrideRestore (tbl : ExplicitValueTable) (o : ScopedDependencyOverride) :
    ExplicitValueTable :=
  match o.hadPrevious, o.previous with
  | true, some p => evRegister tbl ⟨o.target, o.factory, o.type⟩ p
  | _, _ => evRemove tbl ⟨o.target, o.factory, o.type⟩

/-- Embedding of `ContextSlot` (runtime/context.h lines 27-37): the resolved
object's raw address, and whether the context owns it (`holder` non-empty
models `owned = true`). -/
structure ContextSlot where
  obj : Addr
  owned : Bool
deriving DecidableEq, Repr

/-- Embedding of `SlotKey` (runtime/context.h lines 39-52): canonical object
type plus optional factory key. -/
structure SlotKey where
  ty : TyId
  factory : FactoryKey
deriving DecidableEq, Repr

/-- Slot table of one `InjectContext` (`InjectContext::slots`). -/
def SlotMap := SlotKey → Option ContextSlot

/-- Resolution-time view of the active `InjectContextState`: the current
context's slot map, the parent chain above it (nearest parent first), and a
fresh-address counter modelling `operator new` for owned allocations. -/
structure RState where
  cur : SlotMap
  parents : List SlotMap
  nextAddr : Nat

/-- Walk a context chain looking for a key; first context that contains the
key wins, even when its stored `obj` is null (callers test `obj` separately,
exactly as in the C++). -/
def findInContexts : List SlotMap → SlotKey → Option ContextSlot
  | [], _ => none
  | c :: rest, k =>
    match c k with
    | some s => some s
    | none => findInContexts rest k

/-- Embedding of `FindSlotInChain` (runtime/context.h lines 491-502): walk
from `CurrentContext()` up through parents. -/
def FindSlotInChain (st : RState) (k : SlotKey) : Option ContextSlot :=
  findInContexts (st.cur :: st.parents) k

/-- Embedding of `UpsertLocalSlot` (runtime/context.h lines 504-509): write
the slot into the current context, replacing any previous entry for the
key. -/
def UpsertLocalSlot (st : RState) (k : SlotKey) (s : ContextSlot) : RState :=
  { st with cur := fun x => if x = k then some s else st.cur x }

/-- Embedding of `CacheBorrowedRaw<T>` (runtime/context.h lines 541-549): a
null pointer is ignored; otherwise cache a borrowed (holder-less) slot. -/
def CacheBorrowedRaw (st : RState) (ty : TyId) (ptr : Addr) (factory : FactoryKey) :
    RState :=
  if ptr = 0 then st
  else UpsertLocalSlot st ⟨ty, factory⟩ ⟨ptr, false⟩

/-- Embedding of `CacheOwnedRaw<T>` (runtime/context.h lines 551-563): a null
pointer is ignored; otherwise cache an owned slot whose holder deletes the
object. -/
def CacheOwnedRaw (st : RState) (ty : TyId) (ptr : Addr) (factory : FactoryKey) :
    RState :=
  if ptr = 0 then st
  else UpsertLocalSlot st ⟨ty, factory⟩ ⟨ptr, true⟩

/-- Embedding of `CacheOwnedDefault<T>` (runtime/context.h lines 530-539):
allocate a fresh default-constructed object (`new T{}` never returns null,
modelled by `nextAddr + 1`) and cache it as an owned slot. -/
def CacheOwnedDefault (st : RState) (ty : TyId) (factory : FactoryKey) : RState :=
  let addr := st.nextAddr + 1
  UpsertLocalSlot { st with nextAddr := addr } ⟨ty, factory⟩ ⟨addr, true⟩

/-- Embedding of `TryPopulateRawSlotFromExplicit<T>` for non-pointer `T`
(runtime/context.h lines 576-598): first try a registered
`std::reference_wrapper<T>` and cache its address borrowed; then try a
registered `T*` and, when non-null, cache it borrowed.  Both lookups use the
target-then-global `Find` policy. -/
def TryPopulateRawSlotFromExplicit (tbl : ExplicitValueTable) (st : RState)
    (ty : TyId) (target : TargetKey) (factory : FactoryKey) : Bool × RState :=
  match evFind tbl target factory (RegTy.refWrapOf ty) with
  | some addr => (true, CacheBorrowedRaw st ty addr factory)
  | none =>
    match evFind tbl target factory (RegTy.ptrOf ty) with
    | some addr =>
      if addr ≠ 0 then (true, CacheBorrowedRaw st ty addr factory)
      else (false, st)
    | none => (false, st)

/-- Embedding of `EnsureRawSlot<T>` (runtime/resolve/sync.h lines 23-63):
(1) when `cached`, reuse an existing non-null slot from the context chain;
(2) populate from the explicit registry and reuse the resulting slot;
(3) when allowed and `T` is default-constructible, cache an owned default;
otherwise fail.  `defCtor` models `std::is_default_constructible_v<T>`. -/
def EnsureRawSlot (tbl : ExplicitValueTable) (st : RState) (ty : TyId)
    (target : TargetKey) (allowDefault : Bool) (factory : FactoryKey)
    (cached : Bool) (defCtor : Bool) : Option ContextSlot × RState :=
  let hit :=
    if cached then
      match FindSlotInChain st ⟨ty, factory⟩ with
      | some slot => if slot.obj ≠ 0 then some slot else none
      | none => none
    else none
  match hit with
  | some slot => (some slot, st)
  | none =>
    let pop := TryPopulateRawSlotFromExplicit tbl st ty target factory
    let hit2 :=
      if pop.1 then
        match FindSlotInChain pop.2 ⟨ty, factory⟩ with
        | some slot => if slot.obj ≠ 0 then some slot else none
        | none => none
      else none
    match hit2 with
    | some slot => (some slot, pop.2)
    | none =>
      if !allowDefault then (none, pop.2)
      else if defCtor then
        let st2 := CacheOwnedDefault pop.2 ty factory
        (FindSlotInChain st2 ⟨ty, factory⟩, st2)
      else (none, pop.2)

/-- Embedding of `TryResolveRawPtr<T>` (runtime/resolve/sync.h lines 99-114):
`EnsureRawSlot` with `allow_default = false`; translate a found slot into its
non-null raw address. -/
def TryResolveRawPtr (tbl : ExplicitValueTable) (st : RState) (ty : TyId)
    (target : TargetKey) (factory : FactoryKey) (cached : Bool) (defCtor : Bool) :
    Option Addr × RState :=
  let r := EnsureRawSlot tbl st ty target false factory cached defCtor
  match r.1 with
  | some slot => if slot.obj ≠ 0 then (some slot.obj, r.2) else (none, r.2)
  | none => (none, r.2)

/-- Embedding of `DependsPtrValue<T>` (registry.h lines 47-58): resolved raw
pointer, ownership flag, originating factory key, cache-allowed flag. -/
structure DependsPtrValue where
  ptr : Addr
  owned : Bool
  factory : FactoryKey
  cached : Bool
deriving DecidableEq, Repr

/-- What a `Depends(factory)` user factory produced: a `Raw*` (pointer) or a
`Raw&` (reference to the object at the given address). -/
inductive FactoryRet
  | ptrRet (addr : Addr)
  | refRet (addr : Addr)
deriving DecidableEq, Repr

/-- Address carried by a factory result. -/
def FactoryRet.addr : FactoryRet → Addr
  | .ptrRet a => a
  | .refRet a => a

/-- Whether the factory's return category is a pointer
(`kFactoryProducesPointerV` in compile/meta.h / depends.h). -/
def FactoryRet.producesPointer : FactoryRet → Bool
  | .ptrRet _ => true
  | .refRet _ => false

/-- Embedding of `MakeDependsPtrValue<Raw>` applied to a
`DependsMakerWithFactory` expression whose user factory executed
(compile/meta.h lines 76-136): the pointer comes from the factory result
(`static_cast` for a pointer result, `std::addressof` for a reference
result), `factory` is the factory's identity key, and `owned` is true exactly
when the factory's return category is a pointer
(`kFactoryReturnsPointer`). -/
def MakeDependsPtrValueWithFactory (fk : Nat) (cached : Bool) (ret : FactoryRet) :
    DependsPtrValue :=
  match ret with
  | .ptrRet a => ⟨a, true, some fk, cached⟩
  | .refRet a => ⟨a, false, some fk, cached⟩

/-- Embedding of `MakeDependsPtrValue<Raw>` applied to a plain `DependsMaker`
expression evaluated outside a factory-execution scope (compile/meta.h lines
105-121 with maker.h lines 41-50): the conversion yields the pointer
placeholder marker, there is no factory key, and `owned` is false. -/
def MakeDependsPtrValuePlain (marker : Addr) (cached : Bool) : DependsPtrValue :=
  ⟨marker, false, none, cached⟩

/-- Result of one `TryResolveDefaultArgForParam` call for a pointer-typed
parameter: the boolean result, the (possibly written) `out` argument, the
value written through `out_factory`, and the updated context state. -/
structure ResolveParamResult where
  ok : Bool
  out : Addr
  factoryOut : FactoryKey
  state : RState

/-- Embedding of the `resolve_ptr_meta` lambda of
`TryResolveDefaultArgForParam` with `WriteOut = true` (runtime/resolve/sync.h
lines 228-304), applied to an already-fetched metadata payload `m`: consult
the explicit registry first ("Highest priority: explicit override registry");
for plain-`Depends()` metadata run the `EnsureRawSlot` flow with a null
factory key; otherwise use the metadata's concrete pointer, keeping an
existing slot's ownership when the same pointer is already cached and the
metadata says borrowed, else caching it owned or borrowed per the metadata.
Returns (resolved, out, state). -/
def resolvePtrMetaW (tbl : ExplicitValueTable) (st : RState) (ty : TyId)
    (target : TargetKey) (marker : Addr) (defCtor : Bool)
    (m : DependsPtrValue) (arg : Addr) : Bool × Addr × RState :=
  let isPlainDependsPlaceholder : Bool :=
    decide (m.factory = none) && IsDependsPlaceholderPtr marker m.ptr
  let cont : RState → Bool × Addr × RState := fun st1 =>
    if isPlainDependsPlaceholder then
      let er := EnsureRawSlot tbl st1 ty target true none m.cached defCtor
      match er.1 with
      | some slot =>
        if slot.obj ≠ 0 then (true, slot.obj, er.2) else (false, arg, er.2)
      | none => (false, arg, er.2)
    else if m.ptr ≠ 0 then
      let existing := FindSlotInChain st1 ⟨ty, m.factory⟩
      let sameCachedPtr : Bool :=
        match existing with
        | some s => s.obj == m.ptr
        | none => false
      if sameCachedPtr && !m.owned then (true, m.ptr, st1)
      else if m.owned then (true, m.ptr, CacheOwnedRaw st1 ty m.ptr m.factory)
      else (true, m.ptr, CacheBorrowedRaw st1 ty m.ptr m.factory)
    else (false, arg, st1)
  let pop := TryPopulateRawSlotFromExplicit tbl st ty target m.factory
  if pop.1 then
    let rp := TryResolveRawPtr tbl pop.2 ty target m.factory m.cached defCtor
    match rp.1 with
    | some resolved => (true, resolved, rp.2)
    | none => cont rp.2
  else cont pop.2

/-- Embedding of the trailing plain-value metadata path of
`TryResolveDefaultArgForParam` for a pointer parameter
(runtime/resolve/sync.h lines 340-391, `Param` a pointer type): `out_factory`
is set to null; a missing metadata value or a placeholder value fails;
otherwise the value is written out and, when non-null, cached borrowed. -/
def plainValueMetaPathPtr (st : RState) (ty : TyId) (marker : Addr)
    (valMeta : Option Addr) (arg : Addr) : ResolveParamResult :=
  match valMeta with
  | none => ⟨false, arg, none, st⟩
  | some v =>
    if IsDependsPlaceholderPtr marker v then ⟨false, arg, none, st⟩
    else if v ≠ 0 then ⟨true, v, none, CacheBorrowedRaw st ty v none⟩
    else ⟨true, v, none, st⟩

/-- Embedding of `TryResolveDefaultArgForParam<A>` for a pointer-typed
parameter `A = Raw*` (runtime/resolve/sync.h lines 210-392).  `ptrMeta` is
the result of `InjectRegistry::Resolve<DependsPtrValue<Raw>>(target, index)`
(the registered metadata factory already invoked), `valMeta` the result of
the fallback `InjectRegistry::Resolve<Raw*>(target, index)`. -/
def TryResolveDefaultArgForParamPtr (tbl : ExplicitValueTable) (st : RState)
    (ty : TyId) (target : TargetKey) (marker : Addr) (defCtor : Bool)
    (ptrMeta : Option DependsPtrValue) (valMeta : Option Addr)
    (arg : Addr) : ResolveParamResult :=
  match ptrMeta with
  | some m =>
    let r := resolvePtrMetaW tbl st ty target marker defCtor m arg
    if r.1 then ⟨true, r.2.1, m.factory, r.2.2⟩
    else plainValueMetaPathPtr r.2.2 ty marker valMeta arg
  | none => plainValueMetaPathPtr st ty marker valMeta arg

/-- Embedding of `InjectCallResolverSync::ResolveArg` for a pointer-typed
declared parameter (runtime/inject/sync.h lines 32-94): a non-placeholder
argument passes through unchanged; a placeholder resolves through
`TryResolveDefaultArgForParam` and on success the written-out argument is
returned; failure raises `MissingDependency` (modelled as `none`). -/
def ResolveArgPtr (tbl : ExplicitValueTable) (st : RState) (ty : TyId)
    (target : TargetKey) (marker : Addr) (defCtor : Bool)
    (ptrMeta : Option DependsPtrValue) (valMeta : Option Addr)
    (arg : Addr) : Option Addr × RState :=
  if !(IsDependsPlaceholderPtr marker arg) then (some arg, st)
  else
    let r := TryResolveDefaultArgForParamPtr tbl st ty target marker defCtor ptrMeta valMeta arg
    if r.ok then (some r.out, r.state)
    else (none, r.state)

/-- Embedding of the `resolve_ptr_meta_async` lambda of
`TryResolveDefaultArgForParamAsync` with `WriteOut = true`
(runtime/resolve/async.h lines 45-120), applied to the already-awaited
metadata payload `m`.  The async source calls
`TryPopulateRawSlotFromOverride`, whose definition is not part of the
repository snapshot; modelled from the spec: section 4.5 states the async
path "mirrors 4.4" applying "identical ownership/caching policy", so the
override lookup is modelled as `TryPopulateRawSlotFromExplicit`, the explicit
registry consultation of the sync path. -/
def resolvePtrMetaWAsync (tbl : ExplicitValueTable) (st : RState) (ty : TyId)
    (target : TargetKey) (marker : Addr) (defCtor : Bool)
    (m : DependsPtrValue) (arg : Addr) : Bool × Addr × RState :=
  let isPlainDependsPlaceholder : Bool :=
    decide (m.factory = none) && IsDependsPlaceholderPtr marker m.ptr
  let cont : RState → Bool × Addr × RState := fun st1 =>
    if isPlainDependsPlaceholder then
      let er := EnsureRawSlot tbl st1 ty target true none m.cached defCtor
      match er.1 with
      | some slot =>
        if slot.obj ≠ 0 then (true, slot.obj, er.2) else (false, arg, er.2)
      | none => (false, arg, er.2)
    else if m.ptr ≠ 0 then
      let existing := FindSlotInChain st1 ⟨ty, m.factory⟩
      let sameCachedPtr : Bool :=
        match existing with
        | some s => s.obj == m.ptr
        | none => false
      if sameCachedPtr && !m.owned then (true, m.ptr, st1)
      else if m.owned then (true, m.ptr, CacheOwnedRaw st1 ty m.ptr m.factory)
      else (true, m.ptr, CacheBorrowedRaw st1 ty m.ptr m.factory)
    else (false, arg, st1)
  let pop := TryPopulateRawSlotFromExplicit tbl st ty target m.factory
  if pop.1 then
    let rp := TryResolveRawPtr tbl pop.2 ty target m.factory m.cached defCtor
    match rp.1 with
    | some resolved => (true, resolved, rp.2)
    | none => cont rp.2
  else cont pop.2

/-- Embedding of `TryResolveDefaultArgForParamAsync<A>` for a pointer-typed
parameter `A = Raw*` (runtime/resolve/async.h lines 27-218).  `ptrMetaAsync`
and `valMetaAsync` are the awaited results of the async metadata lookups
(`Resolve<Task<DependsPtrValue<Raw>>>` and `Resolve<Task<Raw*>>`); when both
async lookups miss, the function falls back first to the
default-constructible-slot path and finally to the synchronous resolver with
its own `ptrMeta`/`valMeta` lookups. -/
def TryResolveDefaultArgForParamPtrAsync (tbl : ExplicitValueTable) (st : RState)
    (ty : TyId) (target : TargetKey) (marker : Addr) (defCtor : Bool)
    (ptrMetaAsync : Option DependsPtrValue) (valMetaAsync : Option Addr)
    (ptrMeta : Option DependsPtrValue) (valMeta : Option Addr)
    (arg : Addr) : ResolveParamResult :=
  let afterPtrMeta : RState → ResolveParamResult := fun st1 =>
    match valMetaAsync with
    | some v =>
      if IsDependsPlaceholderPtr marker v then ⟨false, arg, none, st1⟩
      else if v ≠ 0 then ⟨true, v, none, CacheBorrowedRaw st1 ty v none⟩
      else ⟨true, v, none, st1⟩
    | none =>
      let er := EnsureRawSlot tbl st1 ty target true none true defCtor
      match er.1 with
      | some slot =>
        if slot.obj ≠ 0 then ⟨true, slot.obj, none, er.2⟩
        else TryResolveDefaultArgForParamPtr tbl er.2 ty target marker defCtor ptrMeta valMeta arg
      | none =>
        TryResolveDefaultArgForParamPtr tbl er.2 ty target marker defCtor ptrMeta valMeta arg
  match ptrMetaAsync with
  | some m =>
    let r := resolvePtrMetaWAsync tbl st ty target marker defCtor m arg
    if r.1 then ⟨true, r.2.1, m.factory, r.2.2⟩
    else afterPtrMeta r.2.2
  | none => afterPtrMeta st

/-- Embedding of `InjectCallResolverAsync::ResolveArgAsyncPlaceholder` for a
pointer-typed declared parameter (runtime/inject/async.h lines 47-103): the
caller guarantees the argument is a placeholder; resolution goes through the
async default-argument resolver; failure raises `MissingDependency`
(modelled as `none`). -/
def ResolveArgAsyncPlaceholderPtr (tbl : ExplicitValueTable) (st : RState)
    (ty : TyId) (target : TargetKey) (marker : Addr) (defCtor : Bool)
    (ptrMetaAsync : Option DependsPtrValue) (valMetaAsync : Option Addr)
    (ptrMeta : Option DependsPtrValue) (valMeta : Option Addr)
    (arg : Addr) : Option Addr × RState :=
  let r := TryResolveDefaultArgForParamPtrAsync tbl st ty target marker defCtor
    ptrMetaAsync valMetaAsync ptrMeta valMeta arg
  if r.ok then (some r.out, r.state)
  else (none, r.state)

/-- Slot table of one `InjectContextLease`'s local `InjectContext`, in a form
that can be enumerated at destruction time (`InjectContext::slots` is an
`unordered_map`; entry order is irrelevant to lookups). -/
abbrev LocalSlots := List (SlotKey × ContextSlot)

/-- Lookup in a local slot table. -/
def slotLookup : LocalSlots → SlotKey → Option ContextSlot
  | [], _ => none
  | e :: m, k => if e.1 = k then some e.2 else slotLookup m k

/-- Embedding of `UpsertLocalSlot` on the enumerable view (runtime/context.h
lines 504-509): `slots[key] = slot`.  Replacing an entry destroys the
previous `ContextSlot`'s holder; when that holder owned the object, its
deleter runs at that moment — the second component records the addresses so
destroyed. -/
def upsertLocalEnum (m : LocalSlots) (k : SlotKey) (s : ContextSlot) :
    LocalSlots × List Addr :=
  match slotLookup m k with
  | some old =>
    (m.map (fun e => if e.1 = k then (k, s) else e),
     if old.owned then [old.obj] else [])
  | none => (m ++ [(k, s)], [])

/-- One slot-caching operation performed inside an injected-call scope:
`CacheOwnedRaw` or `CacheBorrowedRaw` at a given key and address. -/
inductive CacheOp
  | ownedRaw (k : SlotKey) (ptr : Addr)
  | borrowedRaw (k : SlotKey) (ptr : Addr)
deriving DecidableEq, Repr

/-- Key written by a cache operation. -/
def CacheOp.key : CacheOp → SlotKey
  | .ownedRaw k _ => k
  | .borrowedRaw k _ => k

/-- Slot written by a cache operation (owned holder for `CacheOwnedRaw`,
empty holder for `CacheBorrowedRaw`). -/
def CacheOp.slot : CacheOp → ContextSlot
  | .ownedRaw _ p => ⟨p, true⟩
  | .borrowedRaw _ p => ⟨p, false⟩

/-- Address written by a cache operation. -/
def CacheOp.ptr : CacheOp → Addr
  | .ownedRaw _ p => p
  | .borrowedRaw _ p => p

/-- Run one cache operation against the scope's local slot table
(runtime/context.h lines 541-563): null pointers are ignored; otherwise the
slot is upserted, possibly destroying a replaced owned slot's object. -/
def runCacheOp (m : LocalSlots) : CacheOp → LocalSlots × List Addr
  | op =>
    if op.ptr = 0 then (m, [])
    else upsertLocalEnum m op.key op.slot

/-- Run a list of cache operations, concatenating the destruction events they
produce. -/
def runCacheOps (m : LocalSlots) : List CacheOp → LocalSlots × List Addr
  | [] => (m, [])
  | op :: rest =>
    let r := runCacheOp m op
    let rr := runCacheOps r.1 rest
    (rr.1, r.2 ++ rr.2)

/-- Destruction of the lease's local `InjectContext` when the
`InjectContextLease` is destroyed (runtime/context.h lines 225-258 together
with the implicit destruction of the `local_` member): destroying `slots`
drops every holder; each owned holder deletes its object, borrowed (empty)
holders delete nothing. -/
def destroyAtScopeEnd (m : LocalSlots) : List Addr :=
  (m.filter (fun e => e.2.owned)).map (fun e => e.2.obj)

/-- Complete destruction trace of one injected-call scope that starts with an
empty local context, performs the given cache operations, and then ends
(lease destroyed): mid-scope replacement events followed by scope-end
events. -/
def scopeDestroyTrace (ops : List CacheOp) : List Addr :=
  let r := runCacheOps [] ops
  r.2 ++ destroyAtScopeEnd r.1

/-- The slot-cache write performed for one resolved `DependsPtrValue`
metadata payload by `TryResolveDefaultArgForParam` (runtime/resolve/sync.h
lines 291-298): `CacheOwnedRaw` when the metadata is owned, else
`CacheBorrowedRaw`, at key `(Raw, metadata factory)`. -/
def cacheStepOfMeta (ty : TyId) (m : DependsPtrValue) : CacheOp :=
  if m.owned then .ownedRaw ⟨ty, m.factory⟩ m.ptr
  else .borrowedRaw ⟨ty, m.factory⟩ m.ptr

/-- One `Depends(factory)` metadata entry resolved during a scope: the
parameter's raw type, the factory's identity key, its cache flag, and what
the factory returned. -/
structure MetaEntry where
  ty : TyId
  fk : Nat
  cached : Bool
  ret : FactoryRet
deriving DecidableEq, Repr

/-- Cache operations performed for a list of resolved `Depends(factory)`
metadata entries: each entry's payload is built by `MakeDependsPtrValue` and
cached by the resolver's owned/borrowed step. -/
def opsOfEntries (es : List MetaEntry) : List CacheOp :=
  es.map (fun e => cacheStepOfMeta e.ty (MakeDependsPtrValueWithFactory e.fk e.cached e.ret))

/-- Addresses of the entries whose factory returned a pointer (the owned
ones, by `MakeDependsPtrValue`'s ownership rule). -/
def ownedAddrsOfEntries (es : List MetaEntry) : List Addr :=
  (es.filter (fun e =>
    match e.ret with
    | .ptrRet _ => true
    | .refRet _ => false)).map (fun e => e.ret.addr)

end Depends

namespace Task

/-- World of one thread's `TaskScheduler` (coroutine/scheduler.h): the FIFO
queue of scheduled coroutine handles (handles are `Nat` ids) plus an abstract
heap `σ` holding every coroutine's progress. -/
structure SchedWorld (σ : Type) where
  queue : List Nat
  heap : σ

/-- Behaviour of the coroutines driven by the scheduler: whether a handle is
`done()`, the effect of `resume()` on the heap (also listing the handles the
resumption enqueued, in order), and the promise's stored value
(`TakeValue`). -/
structure CoroSem (σ : Type) where
  handleDone : σ → Nat → Bool
  resume : σ → Nat → σ × List Nat
  valueOf : σ → Nat → Nat

/-- Embedding of `TaskScheduler::RunOne` (coroutine/scheduler.h lines 33-53):
an empty queue returns `false`; otherwise the front step is popped; a dead or
done handle is skipped (still returning `true`); otherwise the handle is
resumed under its captured DI state, possibly enqueueing further steps. -/
def RunOne {σ : Type} (sem : CoroSem σ) (w : SchedWorld σ) : Bool × SchedWorld σ :=
  match w.queue with
  | [] => (false, w)
  | s :: rest =>
    if sem.handleDone w.heap s then (true, { w with queue := rest })
    else
      let r := sem.resume w.heap s
      (true, { queue := rest ++ r.2, heap := r.1 })

/-- World after one `RunOne` call (used to iterate the pump loop). -/
def stepOne {σ : Type} (sem : CoroSem σ) (w : SchedWorld σ) : SchedWorld σ :=
  (RunOne sem w).2

/-- Embedding of `Task::Schedule` (coroutine/task.h lines 121-130): a null or
done handle is not enqueued; otherwise the handle joins the back of the
queue. -/
def Schedule {σ : Type} (sem : CoroSem σ) (w : SchedWorld σ) (h : Nat) : SchedWorld σ :=
  if sem.handleDone w.heap h then w
  else { w with queue := w.queue ++ [h] }

/-- Result of `Task::Get`: the task's value, the deadlock exception, or fuel
exhaustion of the bounded model. -/
inductive GetOutcome
  | ok (v : Nat)
  | deadlock
  | outOfFuel
deriving DecidableEq, Repr

/-- The pump loop of `Task::Get` (coroutine/task.h lines 132-154), bounded by
`fuel` iterations: while the task is not done, run one scheduler step; a
`RunOne` that finds the queue empty throws the deadlock error; on completion
the promise value is taken. -/
def getLoop {σ : Type} (sem : CoroSem σ) (h : Nat) : Nat → SchedWorld σ → GetOutcome
  | 0, w =>
    if sem.handleDone w.heap h then .ok (sem.valueOf w.heap h)
    else if w.queue.isEmpty then .deadlock
    else .outOfFuel
  | fuel + 1, w =>
    if sem.handleDone w.heap h then .ok (sem.valueOf w.heap h)
    else if w.queue.isEmpty then .deadlock
    else getLoop sem h fuel (stepOne sem w)

/-- Embedding of `Task::Get` (coroutine/task.h lines 132-154): schedule the
task first, then pump the per-thread scheduler. -/
def TaskGet {σ : Type} (sem : CoroSem σ) (h : Nat) (fuel : Nat) (w : SchedWorld σ) :
    GetOutcome :=
  getLoop sem h fuel (Schedule sem w h)

end Task

namespace Task

/-- The scheduler's `RunOne` reports failure exactly when it finds the queue
empty (coroutine/scheduler.h lines 33-39). -/
theorem runOne_false_iff_empty {σ : Type} (sem : CoroSem σ) (w : SchedWorld σ) :
    (RunOne sem w).1 = false ↔ w.queue = [] := by
  cases hq : w.queue with
  | nil => simp [RunOne, hq]
  | cons s rest =>
    constructor
    · intro h
      by_cases hd : sem.handleDone w.heap s = true
      · simp [RunOne, hq, hd] at h
      · simp [RunOne, hq, hd] at h
    · intro hnil
      exact List.noConfusion hnil

/-- Characterisation of the `Get` pump loop succeeding: it returns the value
exactly when, along the `RunOne` trajectory, the task becomes done within
`fuel` steps and every earlier step found the task unfinished and the queue
non-empty. -/
theorem getLoop_ok_iff {σ : Type} (sem : CoroSem σ) (h : Nat) :
    ∀ (fuel : Nat) (w : SchedWorld σ) (v : Nat),
      getLoop sem h fuel w = .ok v ↔
        ∃ k, k ≤ fuel ∧ sem.handleDone ((stepOne sem)^[k] w).heap h = true ∧
          v = sem.valueOf ((stepOne sem)^[k] w).heap h ∧
          ∀ j < k, sem.handleDone ((stepOne sem)^[j] w).heap h = false ∧
            ((stepOne sem)^[j] w).queue.isEmpty = false
  | 0, w, v => by
    by_cases hd : sem.handleDone w.heap h = true
    · constructor
      · intro hv
        simp [getLoop, hd] at hv
        exact ⟨0, Nat.le_refl 0, hd, hv.symm, fun j hj => absurd hj (by omega)⟩
      · rintro ⟨k, hk, hdk, hvk, hprev⟩
        have hk0 : k = 0 := Nat.le_zero.mp hk
        subst hk0
        simp only [Function.iterate_zero_apply] at hvk
        simp [getLoop, hd, hvk]
    · have hd' : sem.handleDone w.heap h = false := by
        cases hb : sem.handleDone w.heap h
        · rfl
        · exact absurd hb hd
      constructor
      · intro hv
        by_cases he : w.queue.isEmpty = true
        · simp [getLoop, hd', he] at hv
        · simp [getLoop, hd', he] at hv
      · rintro ⟨k, hk, hdk, hvk, hprev⟩
        have hk0 : k = 0 := Nat.le_zero.mp hk
        subst hk0
        simp only [Function.iterate_zero_apply] at hdk
        rw [hd'] at hdk
        exact absurd hdk (by simp)
  | fuel + 1, w, v => by
    by_cases hd : sem.handleDone w.heap h = true
    · constructor
      · intro hv
        simp [getLoop, hd] at hv
        exact ⟨0, Nat.zero_le _, hd, hv.symm, fun j hj => absurd hj (by omega)⟩
      · rintro ⟨k, hk, hdk, hvk, hprev⟩
        cases k with
        | zero =>
          simp only [Function.iterate_zero_apply] at hvk
          simp [getLoop, hd, hvk]
        | succ k =>
          have h0 := (hprev 0 (Nat.succ_pos k)).1
          simp only [Function.iterate_zero_apply] at h0
          rw [hd] at h0
          exact absurd h0 (by simp)
    · have hd' : sem.handleDone w.heap h = false := by
        cases hb : sem.handleDone w.heap h
        · rfl
        · exact absurd hb hd
      by_cases he : w.queue.isEmpty = true
      · constructor
        · intro hv
          simp [getLoop, hd', he] at hv
        · rintro ⟨k, hk, hdk, hvk, hprev⟩
          cases k with
          | zero =>
            rw [Function.iterate_zero_apply, hd'] at hdk
            exact absurd hdk (by simp)
          | succ k =>
            have h0 := (hprev 0 (Nat.succ_pos k)).2
            rw [Function.iterate_zero_apply, he] at h0
            exact absurd h0 (by simp)
      · have he' : w.queue.isEmpty = false := by
          cases hb : w.queue.isEmpty
          · rfl
          · exact absurd hb he
        have ih := getLoop_ok_iff sem h fuel (stepOne sem w) v
        constructor
        · intro hv
          simp only [getLoop, hd', he', Bool.false_eq_true, if_false] at hv
          obtain ⟨k, hk, hdk, hvk, hprev⟩ := ih.mp hv
          refine ⟨k + 1, Nat.succ_le_succ hk, ?_, ?_, ?_⟩
          · rw [Function.iterate_succ_apply]
            exact hdk
          · rw [Function.iterate_succ_apply]
            exact hvk
          · intro j hj
            cases j with
            | zero => exact ⟨hd', he'⟩
            | succ j =>
              have hj' : j < k := Nat.lt_of_succ_lt_succ hj
              rw [Function.iterate_succ_apply]
              exact hprev j hj'
        · rintro ⟨k, hk, hdk, hvk, hprev⟩
          cases k with
          | zero =>
            rw [Function.iterate_zero_apply, hd'] at hdk
            exact absurd hdk (by simp)
          | succ k =>
            have hk' : k ≤ fuel := Nat.le_of_succ_le_succ hk
            rw [Function.iterate_succ_apply] at hdk hvk
            have hprev' : ∀ j < k,
                sem.handleDone ((stepOne sem)^[j] (stepOne sem w)).heap h = false ∧
                ((stepOne sem)^[j] (stepOne sem w)).queue.isEmpty = false := by
              intro j hj
              have := hprev (j + 1) (Nat.succ_lt_succ hj)
              rw [Function.iterate_succ_apply] at this
              exact this
            have hres := ih.mpr ⟨k, hk', hdk, hvk, hprev'⟩
            simp [getLoop, hd', he', hres]

/-- Characterisation of the `Get` pump loop throwing the deadlock exception:
it throws exactly when, along the `RunOne` trajectory, the queue drains while
the task is unfinished within `fuel` steps, every earlier step having found
the task unfinished and the queue non-empty. -/
theorem getLoop_deadlock_iff {σ : Type} (sem : CoroSem σ) (h : Nat) :
    ∀ (fuel : Nat) (w : SchedWorld σ),
      getLoop sem h fuel w = .deadlock ↔
        ∃ k, k ≤ fuel ∧ sem.handleDone ((stepOne sem)^[k] w).heap h = false ∧
          ((stepOne sem)^[k] w).queue.isEmpty = true ∧
          ∀ j < k, sem.handleDone ((stepOne sem)^[j] w).heap h = false ∧
            ((stepOne sem)^[j] w).queue.isEmpty = false
  | 0, w => by
    by_cases hd : sem.handleDone w.heap h = true
    · constructor
      · intro hv
        simp [getLoop, hd] at hv
      · rintro ⟨k, hk, hdk, hek, hprev⟩
        have hk0 : k = 0 := Nat.le_zero.mp hk
        subst hk0
        rw [Function.iterate_zero_apply, hd] at hdk
        exact absurd hdk (by simp)
    · have hd' : sem.handleDone w.heap h = false := by
        cases hb : sem.handleDone w.heap h
        · rfl
        · exact absurd hb hd
      by_cases he : w.queue.isEmpty = true
      · constructor
        · intro _
          exact ⟨0, Nat.le_refl 0, hd', he, fun j hj => absurd hj (by omega)⟩
        · intro _
          simp [getLoop, hd', he]
      · have he' : w.queue.isEmpty = false := by
          cases hb : w.queue.isEmpty
          · rfl
          · exact absurd hb he
        constructor
        · intro hv
          simp [getLoop, hd', he'] at hv
        · rintro ⟨k, hk, hdk, hek, hprev⟩
          have hk0 : k = 0 := Nat.le_zero.mp hk
          subst hk0
          rw [Function.iterate_zero_apply, he'] at hek
          exact absurd hek (by simp)
  | fuel + 1, w => by
    by_cases hd : sem.handleDone w.heap h = true
    · constructor
      · intro hv
        simp [getLoop, hd] at hv
      · rintro ⟨k, hk, hdk, hek, hprev⟩
        cases k with
        | zero =>
          rw [Function.iterate_zero_apply, hd] at hdk
          exact absurd hdk (by simp)
        | succ k =>
          have h0 := (hprev 0 (Nat.succ_pos k)).1
          rw [Function.iterate_zero_apply, hd] at h0
          exact absurd h0 (by simp)
    · have hd' : sem.handleDone w.heap h = false := by
        cases hb : sem.handleDone w.heap h
        · rfl
        · exact absurd hb hd
      by_cases he : w.queue.isEmpty = true
      · constructor
        · intro _
          exact ⟨0, Nat.zero_le _, hd', he, fun j hj => absurd hj (by omega)⟩
        · intro _
          simp [getLoop, hd', he]
      · have he' : w.queue.isEmpty = false := by
          cases hb : w.queue.isEmpty
          · rfl
          · exact absurd hb he
        have ih := getLoop_deadlock_iff sem h fuel (stepOne sem w)
        constructor
        · intro hv
          simp only [getLoop, hd', he', Bool.false_eq_true, if_false] at hv
          obtain ⟨k, hk, hdk, hek, hprev⟩ := ih.mp hv
          refine ⟨k + 1, Nat.succ_le_succ hk, ?_, ?_, ?_⟩
          · rw [Function.iterate_succ_apply]
            exact hdk
          · rw [Function.iterate_succ_apply]
            exact hek
          · intro j hj
            cases j with
            | zero => exact ⟨hd', he'⟩
            | succ j =>
              have hj' : j < k := Nat.lt_of_succ_lt_succ hj
              rw [Function.iterate_succ_apply]
              exact hprev j hj'
        · rintro ⟨k, hk, hdk, hek, hprev⟩
          cases k with
          | zero =>
            rw [Function.iterate_zero_apply, he'] at hek
            exact absurd hek (by simp)
          | succ k =>
            have hk' : k ≤ fuel := Nat.le_of_succ_le_succ hk
            rw [Function.iterate_succ_apply] at hdk hek
            have hprev' : ∀ j < k,
                sem.handleDone ((stepOne sem)^[j] (stepOne sem w)).heap h = false ∧
                ((stepOne sem)^[j] (stepOne sem w)).queue.isEmpty = false := by
              intro j hj
              have := hprev (j + 1) (Nat.succ_lt_succ hj)
              rw [Function.iterate_succ_apply] at this
              exact this
            have hres := ih.mpr ⟨k, hk', hdk, hek, hprev'⟩
            simp [getLoop, hd', he', hres]

end Task

/-! ## Helper lemmas -/

namespace Hook

theorem installAt_true_installed (st : HookState) (t d : Nat) (bk : BackendBehavior)
    (h : (InstallAt st t d bk).2.1 = true) :
    (InstallAt st t d bk).1.installed = true := by
  by_cases h1 : st.installed = true
  · simp [InstallAt, h1]
  · by_cases h2 : t = 0 ∨ d = 0
    · simp [InstallAt, h1, h2] at h
    · by_cases h3 : bk.createOk = true
      · by_cases h4 : bk.enableOk = true
        · simp [InstallAt, h1, h2, h3, h4]
        · simp [InstallAt, h1, h2, h3, h4] at h
      · simp [InstallAt, h1, h2, h3] at h

theorem installAt_of_installed (st : HookState) (t d : Nat) (bk : BackendBehavior)
    (h : st.installed = true) :
    InstallAt st t d bk = (st, true, []) := by
  simp [InstallAt, h]

theorem runInstalls_of_installed (st : HookState) (h : st.installed = true) :
    ∀ calls : List InstallCall,
      RunInstalls st calls = (st, calls.map fun _ => (true, ([] : List BackendOp)))
  | [] => by simp [RunInstalls]
  | c :: rest => by
    simp [RunInstalls, installAt_of_installed st c.target c.detour c.backend h,
      runInstalls_of_installed st h rest]

theorem installAt_fail (st : HookState) (t d : Nat) (bk : BackendBehavior)
    (hinst : st.installed = false)
    (hfail : t = 0 ∨ d = 0 ∨ bk.createOk = false ∨ bk.enableOk = false) :
    InstallAt st t d bk =
      (st, false,
        if t = 0 ∨ d = 0 then []
        else if !bk.createOk then [.createHook]
        else [.createHook, .enableHook, .removeHook]) := by
  by_cases h2 : t = 0 ∨ d = 0
  · simp [InstallAt, hinst, h2]
  · by_cases h3 : bk.createOk = true
    · by_cases h4 : bk.enableOk = true
      · rcases hfail with h | h | h | h <;> simp_all
      · simp [InstallAt, hinst, h2, h3, h4]
    · simp [InstallAt, hinst, h2, h3]

theorem runBefore_all_true : ∀ (chain : List (Nat × Bool)),
    (∀ x ∈ chain, x.2 = true) → runBefore chain = (chain.map Prod.fst, true)
  | [], _ => rfl
  | e :: rest, h => by
    have he : e.2 = true := h e (List.mem_cons_self e rest)
    have ih := runBefore_all_true rest (fun x hx => h x (List.mem_cons_of_mem e hx))
    simp [runBefore, he, ih]

theorem runBefore_veto : ∀ (pre : List (Nat × Bool)) (k : Nat) (post : List (Nat × Bool)),
    (∀ x ∈ pre, x.2 = true) →
    runBefore (pre ++ (k, false) :: post) = (pre.map Prod.fst ++ [k], false)
  | [], _, _, _ => by simp [runBefore]
  | e :: pre, k, post, h => by
    have he : e.2 = true := h e (List.mem_cons_self e pre)
    have ih := runBefore_veto pre k post (fun x hx => h x (List.mem_cons_of_mem e hx))
    simp [runBefore, he, ih]

end Hook

namespace Depends

theorem upsert_cur_self (st : RState) (k : SlotKey) (s : ContextSlot) :
    (UpsertLocalSlot st k s).cur k = some s := by
  simp [UpsertLocalSlot]

theorem findSlotInChain_cur (st : RState) (k : SlotKey) (s : ContextSlot)
    (h : st.cur k = some s) : FindSlotInChain st k = some s := by
  simp [FindSlotInChain, findInContexts, h]

/-- When the explicit registry holds a `reference_wrapper` entry for the
lookup key, `TryPopulateRawSlotFromExplicit` caches it borrowed and reports
success. -/
theorem tryPopulate_refwrap (tbl : ExplicitValueTable) (st : RState) (ty : TyId)
    (target : TargetKey) (factory : FactoryKey) (e : Addr)
    (href : evFind tbl target factory (RegTy.refWrapOf ty) = some e) (he : e ≠ 0) :
    TryPopulateRawSlotFromExplicit tbl st ty target factory =
      (true, UpsertLocalSlot st ⟨ty, factory⟩ ⟨e, false⟩) := by
  simp [TryPopulateRawSlotFromExplicit, href, CacheBorrowedRaw, he]

/-- When both explicit lookups for the key miss,
`TryPopulateRawSlotFromExplicit` fails without touching the state. -/
theorem tryPopulate_miss (tbl : ExplicitValueTable) (st : RState) (ty : TyId)
    (target : TargetKey) (factory : FactoryKey)
    (href : evFind tbl target factory (RegTy.refWrapOf ty) = none)
    (hptr : evFind tbl target factory (RegTy.ptrOf ty) = none) :
    TryPopulateRawSlotFromExplicit tbl st ty target factory = (false, st) := by
  simp [TryPopulateRawSlotFromExplicit, href, hptr]

/-- Case (explicit first): with a `reference_wrapper` entry registered for
`(target, factory)` (or reachable through the global fallback), a placeholder
pointer parameter resolves to the explicit value, cached borrowed, regardless
of any existing slot. -/
theorem resolveParam_explicit_wins (tbl : ExplicitValueTable) (st : RState)
    (ty : TyId) (target : TargetKey) (marker : Addr) (defCtor : Bool)
    (m : DependsPtrValue) (valMeta : Option Addr) (arg e : Addr)
    (href : evFind tbl target m.factory (RegTy.refWrapOf ty) = some e)
    (he : e ≠ 0) :
    (TryResolveDefaultArgForParamPtr tbl st ty target marker defCtor (some m) valMeta arg).ok
        = true ∧
    (TryResolveDefaultArgForParamPtr tbl st ty target marker defCtor (some m) valMeta arg).out
        = e ∧
    (TryResolveDefaultArgForParamPtr tbl st ty target marker defCtor
        (some m) valMeta arg).state.cur ⟨ty, m.factory⟩ = some ⟨e, false⟩ := by
  have hpop := tryPopulate_refwrap tbl st ty target m.factory e href he
  have hcur := upsert_cur_self st ⟨ty, m.factory⟩ ⟨e, false⟩
  have hfind := findSlotInChain_cur _ _ _ hcur
  cases hc : m.cached with
  | true =>
    simp [TryResolveDefaultArgForParamPtr, resolvePtrMetaW, hpop, TryResolveRawPtr,
      EnsureRawSlot, hc, hfind, he, hcur]
  | false =>
    have hpop2 := tryPopulate_refwrap tbl (UpsertLocalSlot st ⟨ty, m.factory⟩ ⟨e, false⟩)
      ty target m.factory e href he
    have hcur2 := upsert_cur_self (UpsertLocalSlot st ⟨ty, m.factory⟩ ⟨e, false⟩)
      ⟨ty, m.factory⟩ ⟨e, false⟩
    have hfind2 := findSlotInChain_cur _ _ _ hcur2
    simp [TryResolveDefaultArgForParamPtr, resolvePtrMetaW, hpop, TryResolveRawPtr,
      EnsureRawSlot, hc, hpop2, hfind2, he, hcur2]

/-- Case (slot second): with no explicit entry reachable for the null factory
key, plain-`Depends()` metadata with caching allowed reuses an existing
non-null slot from the context chain and leaves the state untouched. -/
theorem resolveParam_slot_reused (tbl : ExplicitValueTable) (st : RState)
    (ty : TyId) (target : TargetKey) (marker : Addr) (defCtor : Bool)
    (m : DependsPtrValue) (valMeta : Option Addr) (arg : Addr) (s : ContextSlot)
    (hfac : m.factory = none) (hmp : m.ptr = marker) (hcache : m.cached = true)
    (href : evFind tbl target none (RegTy.refWrapOf ty) = none)
    (hptr : evFind tbl target none (RegTy.ptrOf ty) = none)
    (hslot : FindSlotInChain st ⟨ty, none⟩ = some s) (hobj : s.obj ≠ 0) :
    TryResolveDefaultArgForParamPtr tbl st ty target marker defCtor (some m) valMeta arg
      = ⟨true, s.obj, m.factory, st⟩ := by
  have hpop := tryPopulate_miss tbl st ty target none href hptr
  simp [TryResolveDefaultArgForParamPtr, resolvePtrMetaW, hfac, hmp, hcache, hpop,
    IsDependsPlaceholderPtr, EnsureRawSlot, hslot, hobj]

/-- Case (metadata factory value): with no explicit entry reachable for the
factory's key and no existing slot, the factory-produced pointer is used and
cached owned when the factory returned `Raw*` and borrowed when it returned
`Raw&`. -/
theorem resolveParam_factory_value (tbl : ExplicitValueTable) (st : RState)
    (ty : TyId) (target : TargetKey) (marker : Addr) (defCtor : Bool)
    (fk : Nat) (cached : Bool) (ret : FactoryRet) (valMeta : Option Addr) (arg : Addr)
    (ha : ret.addr ≠ 0)
    (href : evFind tbl target (some fk) (RegTy.refWrapOf ty) = none)
    (hptr : evFind tbl target (some fk) (RegTy.ptrOf ty) = none)
    (hslot : FindSlotInChain st ⟨ty, some fk⟩ = none) :
    TryResolveDefaultArgForParamPtr tbl st ty target marker defCtor
        (some (MakeDependsPtrValueWithFactory fk cached ret)) valMeta arg
      = ⟨true, ret.addr, some fk,
          UpsertLocalSlot st ⟨ty, some fk⟩ ⟨ret.addr, ret.producesPointer⟩⟩ := by
  have hpop := tryPopulate_miss tbl st ty target (some fk) href hptr
  cases ret with
  | ptrRet a =>
    have ha' : a ≠ 0 := ha
    simp [TryResolveDefaultArgForParamPtr, resolvePtrMetaW, MakeDependsPtrValueWithFactory,
      hpop, hslot, ha', CacheOwnedRaw, FactoryRet.addr, FactoryRet.producesPointer]
  | refRet a =>
    have ha' : a ≠ 0 := ha
    simp [TryResolveDefaultArgForParamPtr, resolvePtrMetaW, MakeDependsPtrValueWithFactory,
      hpop, hslot, ha', CacheBorrowedRaw, FactoryRet.addr, FactoryRet.producesPointer]

/-- Case (default construction): with no explicit entry, no existing slot and
a default-constructible type, plain-`Depends()` metadata resolves to a fresh
owned default-constructed object. -/
theorem resolveParam_default_construct (tbl : ExplicitValueTable) (st : RState)
    (ty : TyId) (target : TargetKey) (marker : Addr)
    (m : DependsPtrValue) (valMeta : Option Addr) (arg : Addr)
    (hfac : m.factory = none) (hmp : m.ptr = marker)
    (href : evFind tbl target none (RegTy.refWrapOf ty) = none)
    (hptr : evFind tbl target none (RegTy.ptrOf ty) = none)
    (hslot : FindSlotInChain st ⟨ty, none⟩ = none) :
    TryResolveDefaultArgForParamPtr tbl st ty target marker true (some m) valMeta arg
      = ⟨true, st.nextAddr + 1, m.factory, CacheOwnedDefault st ty none⟩ := by
  have hpop := tryPopulate_miss tbl st ty target none href hptr
  have hcur := upsert_cur_self { st with nextAddr := st.nextAddr + 1 }
    ⟨ty, none⟩ ⟨st.nextAddr + 1, true⟩
  have hfind := findSlotInChain_cur _ _ _ hcur
  cases hc : m.cached with
  | true =>
    simp [TryResolveDefaultArgForParamPtr, resolvePtrMetaW, hfac, hmp, hc, hpop,
      IsDependsPlaceholderPtr, EnsureRawSlot, hslot, CacheOwnedDefault, hfind]
  | false =>
    simp [TryResolveDefaultArgForParamPtr, resolvePtrMetaW, hfac, hmp, hc, hpop,
      IsDependsPlaceholderPtr, EnsureRawSlot, hslot, CacheOwnedDefault, hfind]

/-- Metadata produced by an executed `Depends(factory)` with a non-null
result always resolves in the `resolve_ptr_meta` flow: either the explicit
registry supplies a value, or the factory's own pointer is used. -/
theorem resolvePtrMetaW_ok (tbl : ExplicitValueTable) (st : RState) (ty : TyId)
    (target : TargetKey) (marker : Addr) (defCtor : Bool)
    (m : DependsPtrValue) (arg : Addr)
    (hfac : m.factory ≠ none) (hp : m.ptr ≠ 0) :
    (resolvePtrMetaW tbl st ty target marker defCtor m arg).1 = true := by
  have h1 : (decide (m.factory = none) && IsDependsPlaceholderPtr marker m.ptr) = false := by
    simp [hfac]
  simp only [resolvePtrMetaW, h1]
  split
  · split
    · rfl
    · simp [hp]
      split <;> first | rfl | (split <;> rfl)
  · simp [hp]
    split <;> first | rfl | (split <;> rfl)

/-- Case (failure): with no metadata registered for the parameter at all,
resolution fails and the state is untouched. -/
theorem resolveParam_no_metadata (tbl : ExplicitValueTable) (st : RState)
    (ty : TyId) (target : TargetKey) (marker : Addr) (defCtor : Bool) (arg : Addr) :
    TryResolveDefaultArgForParamPtr tbl st ty target marker defCtor none none arg
      = ⟨false, arg, none, st⟩ := rfl

theorem slotLookup_append_left_none (m1 m2 : LocalSlots) (k : SlotKey)
    (h : slotLookup m1 k = none) :
    slotLookup (m1 ++ m2) k = slotLookup m2 k := by
  induction m1 with
  | nil => rfl
  | cons e m1 ih =>
    by_cases he : e.1 = k
    · simp [slotLookup, he] at h
    · simp only [slotLookup, he, if_false, List.cons_append, ite_false] at h ⊢
      exact ih h

/-- Running cache operations with pairwise-distinct keys, all fresh for the
starting table and all non-null, appends one slot per operation and destroys
nothing. -/
theorem runCacheOps_fresh : ∀ (ops : List CacheOp) (m : LocalSlots),
    (∀ op ∈ ops, slotLookup m op.key = none) →
    (ops.map CacheOp.key).Nodup →
    (∀ op ∈ ops, op.ptr ≠ 0) →
    runCacheOps m ops = (m ++ ops.map (fun op => (op.key, op.slot)), [])
  | [], m, _, _, _ => by simp [runCacheOps]
  | op :: rest, m, hfresh, hnodup, hptr => by
    have hp := hptr op (List.mem_cons_self op rest)
    have hf := hfresh op (List.mem_cons_self op rest)
    have hstep : runCacheOp m op = (m ++ [(op.key, op.slot)], []) := by
      simp [runCacheOp, hp, upsertLocalEnum, hf]
    have hkey : op.key ∉ rest.map CacheOp.key := by
      have := hnodup
      simp only [List.map_cons, List.nodup_cons] at this
      exact this.1
    have hrest := runCacheOps_fresh rest (m ++ [(op.key, op.slot)])
      (fun op' hop' => by
        have h1 : slotLookup m op'.key = none := hfresh op' (List.mem_cons_of_mem op hop')
        have h2 : op.key ≠ op'.key := fun he =>
          hkey (he ▸ List.mem_map_of_mem CacheOp.key hop')
        rw [slotLookup_append_left_none m [(op.key, op.slot)] op'.key h1]
        simp [slotLookup, h2])
      (by
        have := hnodup
        simp only [List.map_cons, List.nodup_cons] at this
        exact this.2)
      (fun op' hop' => hptr op' (List.mem_cons_of_mem op hop'))
    simp [runCacheOps, hstep, hrest]

/-- Keys written by the cache operations of a list of metadata entries. -/
theorem opsOfEntries_keys (es : List MetaEntry) :
    (opsOfEntries es).map CacheOp.key = es.map (fun e => SlotKey.mk e.ty (some e.fk)) := by
  induction es with
  | nil => rfl
  | cons e es ih =>
    cases hr : e.ret with
    | ptrRet a =>
      simp [opsOfEntries, cacheStepOfMeta, MakeDependsPtrValueWithFactory, hr,
        CacheOp.key, ih, opsOfEntries] at ih ⊢
      exact ih
    | refRet a =>
      simp [opsOfEntries, cacheStepOfMeta, MakeDependsPtrValueWithFactory, hr,
        CacheOp.key, ih, opsOfEntries] at ih ⊢
      exact ih

/-- The scope-end destruction of the slots written for a list of metadata
entries destroys exactly the pointer-factory (owned) addresses, in order. -/
theorem destroy_slots_of_entries (es : List MetaEntry) :
    destroyAtScopeEnd ((opsOfEntries es).map (fun op => (op.key, op.slot)))
      = ownedAddrsOfEntries es := by
  induction es with
  | nil => rfl
  | cons e es ih =>
    cases hr : e.ret with
    | ptrRet a =>
      simp [opsOfEntries, cacheStepOfMeta, MakeDependsPtrValueWithFactory, hr,
        CacheOp.key, CacheOp.slot, destroyAtScopeEnd, ownedAddrsOfEntries,
        FactoryRet.addr] at ih ⊢
      exact ih
    | refRet a =>
      simp [opsOfEntries, cacheStepOfMeta, MakeDependsPtrValueWithFactory, hr,
        CacheOp.key, CacheOp.slot, destroyAtScopeEnd, ownedAddrsOfEntries,
        FactoryRet.addr] at ih ⊢
      exact ih

/-- Pointers written by the cache operations of metadata entries are their
factory-result addresses. -/
theorem opsOfEntries_ptr (es : List MetaEntry) (op : CacheOp)
    (hop : op ∈ opsOfEntries es) : ∃ e ∈ es, op.ptr = e.ret.addr := by
  induction es with
  | nil => simp [opsOfEntries] at hop
  | cons e es ih =>
    simp only [opsOfEntries, List.map_cons, List.mem_cons] at hop
    cases hop with
    | inl h =>
      refine ⟨e, List.mem_cons_self e es, ?_⟩
      subst h
      cases e.ret <;>
        simp [cacheStepOfMeta, MakeDependsPtrValueWithFactory, CacheOp.ptr, FactoryRet.addr]
    | inr h =>
      obtain ⟨e', he', hp⟩ := ih h
      exact ⟨e', List.mem_cons_of_mem e he', hp⟩

end Depends

/-! ## Claim theorems -/

/-- C10: when the backend trampoline was never stored (`Original()` null,
e.g. install never succeeded), `CallOriginal` — and hence `Dispatch` on an
empty chain — never invokes the null function pointer: both return the
`HookDefaultReturn<R>()` value, which returns normally for void `R`, returns
a default-constructed `R` for default-constructible `R`, and terminates for
reference or non-default-constructible `R`. -/
theorem callOriginal_null_never_invokes (cat : Hook.RetCategory) :
    Hook.CallOriginal 0 cat = ([], .defaulted (Hook.HookDefaultReturn cat)) ∧
    Hook.Dispatch [] 0 cat = ([], .defaulted (Hook.HookDefaultReturn cat)) ∧
    Hook.HookDefaultReturn .voidT = .retVoid ∧
    Hook.HookDefaultReturn .defCtorT = .retDefault ∧
    Hook.HookDefaultReturn .refT = .terminate ∧
    Hook.HookDefaultReturn .otherT = .terminate :=
  ⟨rfl, rfl, rfl, rfl, rfl, rfl⟩

/-- C3: a pointer argument is classified as a DI placeholder iff it equals
the stable sentinel produced by `DependsPointerMarker`; since the sentinel is
the address of a real object it is non-null, so `nullptr` is never a
placeholder; value-typed arguments are never placeholders. -/
theorem pointer_placeholder_iff_sentinel (marker : Depends.Addr) (hm : marker ≠ 0) :
    Depends.IsDependsPlaceholderPtr marker 0 = false ∧
    (∀ p : Depends.Addr, Depends.IsDependsPlaceholderPtr marker p = true ↔ p = marker) ∧
    (∀ (α : Type) (v : α), Depends.IsDependsPlaceholderValue v = false) := by
  refine ⟨?_, ?_, ?_⟩
  · simp [Depends.IsDependsPlaceholderPtr, (Ne.symm hm)]
  · intro p
    simp [Depends.IsDependsPlaceholderPtr]
  · intro α v
    rfl

/-- Witness for C3 at the concrete sentinel address 1. -/
theorem pointer_placeholder_iff_sentinel_witness :
    (1 : Depends.Addr) ≠ 0 ∧ Depends.IsDependsPlaceholderPtr 1 0 = false :=
  ⟨by decide, (pointer_placeholder_iff_sentinel 1 (by decide)).1⟩

/-- C4: once an `InstallAt` call on a `HookState` has returned success, the
state is `Installed` and every subsequent `InstallAt` call performs no
backend operation and returns true, leaving the state unchanged
(`Uninstalled → Installed` happens at most once and `Installed` is
terminal). -/
theorem installAt_install_once (st : Hook.HookState) (t d : Nat)
    (bk : Hook.BackendBehavior) (calls : List Hook.InstallCall)
    (hsucc : (Hook.InstallAt st t d bk).2.1 = true) :
    (Hook.InstallAt st t d bk).1.installed = true ∧
    Hook.RunInstalls (Hook.InstallAt st t d bk).1 calls =
      ((Hook.InstallAt st t d bk).1, calls.map fun _ => (true, ([] : List Hook.BackendOp))) :=
  ⟨Hook.installAt_true_installed st t d bk hsucc,
   Hook.runInstalls_of_installed _ (Hook.installAt_true_installed st t d bk hsucc) calls⟩

/-- Witness for C4: a fresh state installs successfully at target 1 / detour
2, and two further install calls are no-ops returning success. -/
theorem installAt_install_once_witness :
    (Hook.InstallAt ⟨false, 0⟩ 1 2 ⟨true, true, 9⟩).2.1 = true ∧
    (Hook.InstallAt ⟨false, 0⟩ 1 2 ⟨true, true, 9⟩).1.installed = true ∧
    Hook.RunInstalls (Hook.InstallAt ⟨false, 0⟩ 1 2 ⟨true, true, 9⟩).1
        [⟨1, 2, ⟨true, true, 9⟩⟩, ⟨1, 2, ⟨false, false, 3⟩⟩] =
      ((Hook.InstallAt ⟨false, 0⟩ 1 2 ⟨true, true, 9⟩).1,
        [(true, []), (true, [])]) := by
  refine ⟨by decide, ?_⟩
  have h := installAt_install_once ⟨false, 0⟩ 1 2 ⟨true, true, 9⟩
    [⟨1, 2, ⟨true, true, 9⟩⟩, ⟨1, 2, ⟨false, false, 3⟩⟩] (by decide)
  exact ⟨h.1, h.2⟩

/-- C5: when the one-time backend install triggered by registering a
decorator fails, the failure path is atomic: the just-added node is removed
from the chain again, the installed flag stays false, and
`RegisterDecorator` returns false; in the case where `EnableHook` failed
after `CreateHook` succeeded, the backend received exactly
`CreateHook`, `EnableHook`, then the compensating `RemoveHook`. -/
theorem registerDecorator_rollback (p : Hook.Pipeline) (n : Nat)
    (bk : Hook.BackendBehavior)
    (hn : n ∉ p.chain)
    (hinst : p.state.installed = false)
    (hfail : p.target = 0 ∨ p.detour = 0 ∨ bk.createOk = false ∨ bk.enableOk = false) :
    (Hook.RegisterDecorator p (some n) bk).2.1 = false ∧
    (Hook.RegisterDecorator p (some n) bk).1.chain = p.chain ∧
    (Hook.RegisterDecorator p (some n) bk).1.state.installed = false ∧
    (¬(p.target = 0 ∨ p.detour = 0) → bk.createOk = true →
      (Hook.RegisterDecorator p (some n) bk).2.2 =
        [Hook.BackendOp.createHook, Hook.BackendOp.enableHook, Hook.BackendOp.removeHook]) := by
  have hfilter : List.filter (fun e => !decide (e = n)) p.chain = p.chain := by
    apply List.filter_eq_self.mpr
    intro a ha
    have hne : a ≠ n := fun hx => hn (hx ▸ ha)
    simp [hne]
  have hinstall := Hook.installAt_fail p.state p.target p.detour bk hinst hfail
  refine ⟨?_, ?_, ?_, ?_⟩
  · simp [Hook.RegisterDecorator, hn, hinstall, Hook.UnregisterDecorator, hfilter]
  · simp [Hook.RegisterDecorator, hn, hinstall, Hook.UnregisterDecorator, hfilter]
  · simp [Hook.RegisterDecorator, hn, hinstall, Hook.UnregisterDecorator, hfilter, hinst]
  · intro h2 h3
    simp [Hook.RegisterDecorator, hn, hinstall, Hook.UnregisterDecorator, hfilter, h2, h3]

/-- Witness for C5: registering node 4 on a fresh pipeline whose backend
accepts `CreateHook` but rejects `EnableHook` rolls back with a `RemoveHook`
and leaves the pipeline unchanged. -/
theorem registerDecorator_rollback_witness :
    (4 : Nat) ∉ ([] : List Nat) ∧
    (Hook.RegisterDecorator ⟨⟨false, 0⟩, 1, 2, [], false⟩ (some 4) ⟨true, false, 9⟩).2.1 = false ∧
    (Hook.RegisterDecorator ⟨⟨false, 0⟩, 1, 2, [], false⟩ (some 4) ⟨true, false, 9⟩).1.chain = [] ∧
    (Hook.RegisterDecorator ⟨⟨false, 0⟩, 1, 2, [], false⟩ (some 4) ⟨true, false, 9⟩).2.2 =
      [Hook.BackendOp.createHook, Hook.BackendOp.enableHook, Hook.BackendOp.removeHook] := by
  have h := registerDecorator_rollback ⟨⟨false, 0⟩, 1, 2, [], false⟩ 4 ⟨true, false, 9⟩
    (by decide) (by decide) (by decide)
  exact ⟨by decide, h.1, h.2.1, h.2.2.2 (by decide) (by decide)⟩

/-- C1: on every dispatch, the before-phase runs over the chain in
registration order; if every before-phase returned true the original function
is called exactly once and the after-phase runs over all decorators in
reverse order; if decorator `k`'s before-phase returns false, the original is
never called, decorators registered before `k` plus `k` itself run their
after-phase in reverse order, and decorators registered after `k` contribute
no phase at all (the dispatch result does not depend on them). -/
theorem dispatch_order (chain : List (Nat × Bool)) (original : Nat)
    (cat : Hook.RetCategory) (horig : original ≠ 0) :
    ((∀ x ∈ chain, x.2 = true) →
      Hook.Dispatch chain original cat =
        (chain.map (fun x => Hook.Event.before x.1) ++ [Hook.Event.callOrig]
            ++ (chain.map (fun x => Hook.Event.after x.1)).reverse,
         Hook.CallOutcome.invoked original)) ∧
    (∀ pre k post, chain = pre ++ (k, false) :: post → (∀ x ∈ pre, x.2 = true) →
      Hook.Dispatch chain original cat =
        ((pre.map (fun x => Hook.Event.before x.1) ++ [Hook.Event.before k])
            ++ (Hook.Event.after k :: (pre.map (fun x => Hook.Event.after x.1)).reverse),
         Hook.CallOutcome.defaulted (Hook.HookDefaultReturn cat)) ∧
      Hook.Dispatch chain original cat = Hook.Dispatch (pre ++ [(k, false)]) original cat) := by
  constructor
  · intro hall
    cases chain with
    | nil => simp [Hook.Dispatch, Hook.CallOriginal, horig]
    | cons e rest =>
      have hrb := Hook.runBefore_all_true (e :: rest) hall
      simp [Hook.Dispatch, hrb, Hook.CallOriginal, horig, List.map_reverse,
        List.map_map, Function.comp_def]
  · intro pre k post hc hpre
    subst hc
    have hrb := Hook.runBefore_veto pre k post hpre
    have hrb2 := Hook.runBefore_veto pre k [] hpre
    constructor
    · simp [Hook.Dispatch, hrb, List.map_reverse, List.map_map, Function.comp_def]
    · simp [Hook.Dispatch, hrb, hrb2]

/-- Witness for C1: chain `[(1,true),(2,false),(3,true)]` with decorator 2
vetoing at original 7: decorator 1 and 2 run before-phases in order, the
original is skipped, after-phases run in reverse, decorator 3 runs
nothing. -/
theorem dispatch_order_witness :
    (7 : Nat) ≠ 0 ∧
    Hook.Dispatch [(1, true), (2, false), (3, true)] 7 .defCtorT =
      ([Hook.Event.before 1, Hook.Event.before 2,
        Hook.Event.after 2, Hook.Event.after 1],
       Hook.CallOutcome.defaulted Hook.HookDefault.retDefault) := by
  have h := (dispatch_order [(1, true), (2, false), (3, true)] 7 .defCtorT
    (by decide)).2 [(1, true)] 2 [(3, true)] rfl (by decide)
  exact ⟨by decide, h.1⟩

/-- C7: a target-scoped override affects lookups for that target only, and
installs its value for that target; a global override is seen by every target
that has no more specific target-scoped entry, while targets with such an
entry keep it; destroying a scoped override restores the registry's lookup
behaviour for every key exactly to what it was before the override was
installed (previous value re-registered, or entry removed when there was
none). -/
theorem scoped_override_precedence_restore (tbl : Depends.ExplicitValueTable)
    (tgt : Nat) (f : Depends.FactoryKey) (ty : Depends.RegTy) (v w : Depends.Addr) :
    (∀ (t' : Depends.TargetKey) (f' : Depends.FactoryKey) (ty' : Depends.RegTy),
      t' ≠ some tgt →
      Depends.evFind (Depends.overrideInstall tbl (some tgt) f ty v).1 t' f' ty' =
        Depends.evFind tbl t' f' ty') ∧
    Depends.evFind (Depends.overrideInstall tbl (some tgt) f ty v).1 (some tgt) f ty
      = some v ∧
    (Depends.evFindExact tbl (some tgt) f ty = none →
      Depends.evFind (Depends.overrideInstall tbl none f ty v).1 (some tgt) f ty
        = some v) ∧
    (Depends.evFindExact tbl (some tgt) f ty = some w →
      Depends.evFind (Depends.overrideInstall tbl none f ty v).1 (some tgt) f ty
        = some w) ∧
    (∀ (tg : Depends.TargetKey) (k' : Depends.ExplicitValueKey),
      Depends.overrideRestore (Depends.overrideInstall tbl tg f ty v).1
        (Depends.overrideInstall tbl tg f ty v).2 k' = tbl k') := by
  refine ⟨?_, ?_, ?_, ?_, ?_⟩
  · intro t' f' ty' hne
    simp only [Depends.overrideInstall, Depends.evFind, Depends.evRegister]
    have h1 : (⟨t', f', ty'⟩ : Depends.ExplicitValueKey) ≠ ⟨some tgt, f, ty⟩ := by
      intro h
      exact hne (congrArg Depends.ExplicitValueKey.target h)
    have h2 : (⟨none, f', ty'⟩ : Depends.ExplicitValueKey) ≠ ⟨some tgt, f, ty⟩ := by
      intro h
      exact Option.noConfusion (congrArg Depends.ExplicitValueKey.target h)
    rw [if_neg h1, if_neg h2]
  · simp [Depends.overrideInstall, Depends.evFind, Depends.evRegister]
  · intro hnone
    simp only [Depends.evFindExact] at hnone
    have h1 : (⟨some tgt, f, ty⟩ : Depends.ExplicitValueKey) ≠ ⟨none, f, ty⟩ := by
      intro h
      exact Option.noConfusion (congrArg Depends.ExplicitValueKey.target h)
    simp [Depends.overrideInstall, Depends.evFind, Depends.evRegister, h1, hnone]
  · intro hsome
    simp only [Depends.evFindExact] at hsome
    have h1 : (⟨some tgt, f, ty⟩ : Depends.ExplicitValueKey) ≠ ⟨none, f, ty⟩ := by
      intro h
      exact Option.noConfusion (congrArg Depends.ExplicitValueKey.target h)
    simp [Depends.overrideInstall, Depends.evFind, Depends.evRegister, h1, hsome]
  · intro tg k'
    by_cases hk : k' = ⟨tg, f, ty⟩
    · subst hk
      simp only [Depends.overrideInstall, Depends.overrideRestore, Depends.evFindExact]
      cases htbl : tbl ⟨tg, f, ty⟩ with
      | none => simp [htbl, Depends.evRemove]
      | some p => simp [htbl, Depends.evRegister]
    · simp only [Depends.overrideInstall, Depends.overrideRestore, Depends.evFindExact]
      cases htbl : tbl ⟨tg, f, ty⟩ with
      | none => simp [htbl, Depends.evRemove, Depends.evRegister, hk]
      | some p => simp [htbl, Depends.evRemove, Depends.evRegister, hk]

/-- Witness for C7: on a registry holding only a global entry valued 8, a
target-scoped override for target 1 does not change lookups for target 2, and
a global lookup after install-plus-restore matches the original registry. -/
theorem scoped_override_precedence_restore_witness :
    ((some 2 : Depends.TargetKey) ≠ some 1) ∧
    Depends.evFind
      (Depends.overrideInstall
        (fun k => if k = ⟨none, none, Depends.RegTy.ptrOf 0⟩ then some 8 else none)
        (some 1) none (Depends.RegTy.ptrOf 0) 9).1 (some 2) none (Depends.RegTy.ptrOf 0) =
      Depends.evFind
        (fun k => if k = ⟨none, none, Depends.RegTy.ptrOf 0⟩ then some 8 else none)
        (some 2) none (Depends.RegTy.ptrOf 0) := by
  have h := (scoped_override_precedence_restore
    (fun k => if k = ⟨none, none, Depends.RegTy.ptrOf 0⟩ then some 8 else none)
    1 none (Depends.RegTy.ptrOf 0) 9 0).1 (some 2) none (Depends.RegTy.ptrOf 0)
    (by decide)
  exact ⟨by decide, h⟩

/-- C2 counterexample: the claimed resolution order "(1) existing slot first,
(2) explicit-value registry second" is false on the code.  Concretely: type 0
has a cached non-null slot (object 5, caching allowed) in the current
context, and the explicit registry holds a global `T*` entry (object 7) for
the null factory key; resolving a placeholder pointer parameter with
plain-`Depends()` metadata yields the explicit value 7, not the slot value
5 — the explicit registry is consulted with higher priority than the existing
slot ("Highest priority: explicit override registry" in
`TryResolveDefaultArgForParam`). -/
theorem resolution_order_counterexample :
    Depends.FindSlotInChain
        ⟨fun k => if k = ⟨0, none⟩ then some ⟨5, true⟩ else none, [], 200⟩ ⟨0, none⟩
      = some ⟨5, true⟩ ∧
    (Depends.ResolveArgPtr
        (fun k => if k = ⟨none, none, Depends.RegTy.ptrOf 0⟩ then some 7 else none)
        ⟨fun k => if k = ⟨0, none⟩ then some ⟨5, true⟩ else none, [], 200⟩
        0 (some 1) 100 true (some (Depends.MakeDependsPtrValuePlain 100 true)) none 100).1
      = some 7 ∧
    (some 7 : Option Depends.Addr) ≠ some 5 :=
  ⟨rfl, rfl, by decide⟩

/-- C2 (amended): for every placeholder pointer parameter, resolution tries
the sources in this order and uses the first that succeeds: (1) the
explicit-value registry, looking up `(target, factory)` first and falling
back to `(global, factory)`, its value cached borrowed; (2) an existing
non-null slot found in the current context chain, but only when caching is
allowed (plain-`Depends()` metadata; the state is left unchanged); (3) the
registered default-argument metadata factory's value, cached owned when the
factory returned a pointer and borrowed when it returned a reference; (4)
default construction when the type is default-constructible (cached owned);
otherwise — in particular when no metadata is registered — resolution
fails. -/
theorem resolution_order_amended :
    (∀ (tbl : Depends.ExplicitValueTable) (st : Depends.RState) (ty : Depends.TyId)
        (target : Depends.TargetKey) (marker : Depends.Addr) (defCtor : Bool)
        (m : Depends.DependsPtrValue) (valMeta : Option Depends.Addr)
        (arg e : Depends.Addr),
      Depends.evFind tbl target m.factory (Depends.RegTy.refWrapOf ty) = some e →
      e ≠ 0 →
      (Depends.TryResolveDefaultArgForParamPtr tbl st ty target marker defCtor
          (some m) valMeta arg).ok = true ∧
      (Depends.TryResolveDefaultArgForParamPtr tbl st ty target marker defCtor
          (some m) valMeta arg).out = e ∧
      (Depends.TryResolveDefaultArgForParamPtr tbl st ty target marker defCtor
          (some m) valMeta arg).state.cur ⟨ty, m.factory⟩ = some ⟨e, false⟩) ∧
    (∀ (tbl : Depends.ExplicitValueTable) (st : Depends.RState) (ty : Depends.TyId)
        (target : Depends.TargetKey) (marker : Depends.Addr) (defCtor : Bool)
        (m : Depends.DependsPtrValue) (valMeta : Option Depends.Addr)
        (arg : Depends.Addr) (s : Depends.ContextSlot),
      m.factory = none → m.ptr = marker → m.cached = true →
      Depends.evFind tbl target none (Depends.RegTy.refWrapOf ty) = none →
      Depends.evFind tbl target none (Depends.RegTy.ptrOf ty) = none →
      Depends.FindSlotInChain st ⟨ty, none⟩ = some s → s.obj ≠ 0 →
      Depends.TryResolveDefaultArgForParamPtr tbl st ty target marker defCtor
          (some m) valMeta arg = ⟨true, s.obj, m.factory, st⟩) ∧
    (∀ (tbl : Depends.ExplicitValueTable) (st : Depends.RState) (ty : Depends.TyId)
        (target : Depends.TargetKey) (marker : Depends.Addr) (defCtor : Bool)
        (fk : Nat) (cached : Bool) (ret : Depends.FactoryRet)
        (valMeta : Option Depends.Addr) (arg : Depends.Addr),
      ret.addr ≠ 0 →
      Depends.evFind tbl target (some fk) (Depends.RegTy.refWrapOf ty) = none →
      Depends.evFind tbl target (some fk) (Depends.RegTy.ptrOf ty) = none →
      Depends.FindSlotInChain st ⟨ty, some fk⟩ = none →
      Depends.TryResolveDefaultArgForParamPtr tbl st ty target marker defCtor
          (some (Depends.MakeDependsPtrValueWithFactory fk cached ret)) valMeta arg
        = ⟨true, ret.addr, some fk,
            Depends.UpsertLocalSlot st ⟨ty, some fk⟩
              ⟨ret.addr, ret.producesPointer⟩⟩) ∧
    (∀ (tbl : Depends.ExplicitValueTable) (st : Depends.RState) (ty : Depends.TyId)
        (target : Depends.TargetKey) (marker : Depends.Addr)
        (m : Depends.DependsPtrValue) (valMeta : Option Depends.Addr)
        (arg : Depends.Addr),
      m.factory = none → m.ptr = marker →
      Depends.evFind tbl target none (Depends.RegTy.refWrapOf ty) = none →
      Depends.evFind tbl target none (Depends.RegTy.ptrOf ty) = none →
      Depends.FindSlotInChain st ⟨ty, none⟩ = none →
      Depends.TryResolveDefaultArgForParamPtr tbl st ty target marker true
          (some m) valMeta arg
        = ⟨true, st.nextAddr + 1, m.factory, Depends.CacheOwnedDefault st ty none⟩) ∧
    (∀ (tbl : Depends.ExplicitValueTable) (st : Depends.RState) (ty : Depends.TyId)
        (target : Depends.TargetKey) (marker : Depends.Addr) (defCtor : Bool)
        (arg : Depends.Addr),
      Depends.TryResolveDefaultArgForParamPtr tbl st ty target marker defCtor
          none none arg = ⟨false, arg, none, st⟩) :=
  ⟨fun tbl st ty target marker defCtor m valMeta arg e href he =>
      Depends.resolveParam_explicit_wins tbl st ty target marker defCtor m valMeta arg e href he,
   fun tbl st ty target marker defCtor m valMeta arg s hfac hmp hcache href hptr hslot hobj =>
      Depends.resolveParam_slot_reused tbl st ty target marker defCtor m valMeta arg s
        hfac hmp hcache href hptr hslot hobj,
   fun tbl st ty target marker defCtor fk cached ret valMeta arg ha href hptr hslot =>
      Depends.resolveParam_factory_value tbl st ty target marker defCtor fk cached ret
        valMeta arg ha href hptr hslot,
   fun tbl st ty target marker m valMeta arg hfac hmp href hptr hslot =>
      Depends.resolveParam_default_construct tbl st ty target marker m valMeta arg
        hfac hmp href hptr hslot,
   fun tbl st ty target marker defCtor arg =>
      Depends.resolveParam_no_metadata tbl st ty target marker defCtor arg⟩

/-- Witness for amended C2: on an empty registry, plain-`Depends()` metadata
with caching allowed reuses the existing slot holding object 5 for type 0 and
leaves the state unchanged. -/
theorem resolution_order_amended_witness :
    Depends.FindSlotInChain
        ⟨fun k => if k = ⟨0, none⟩ then some ⟨5, true⟩ else none, [], 200⟩ ⟨0, none⟩
      = some ⟨5, true⟩ ∧
    Depends.TryResolveDefaultArgForParamPtr (fun _ => none)
        ⟨fun k => if k = ⟨0, none⟩ then some ⟨5, true⟩ else none, [], 200⟩
        0 (some 1) 100 true (some (Depends.MakeDependsPtrValuePlain 100 true)) none 100
      = ⟨true, 5, none,
          ⟨fun k => if k = ⟨0, none⟩ then some ⟨5, true⟩ else none, [], 200⟩⟩ := by
  have h := (resolution_order_amended).2.1 (fun _ => none)
    ⟨fun k => if k = ⟨0, none⟩ then some ⟨5, true⟩ else none, [], 200⟩
    0 (some 1) 100 true (Depends.MakeDependsPtrValuePlain 100 true) none 100
    ⟨5, true⟩ rfl rfl rfl rfl rfl rfl (by decide)
  exact ⟨rfl, h⟩

/-- C8: async/sync resolution equivalence.  For a placeholder pointer
parameter whose async metadata is the awaited payload of a coroutine factory
(`Task<U*>`/`Task<U&>` producing a non-null result), the async placeholder
resolver returns exactly the same resolved value and the same final context
state — hence the same slot caching and the same owned/borrowed
classification — as the synchronous resolver given the equivalent plain
factory's payload. -/
theorem async_sync_resolution_equiv (tbl : Depends.ExplicitValueTable)
    (st : Depends.RState) (ty : Depends.TyId) (target : Depends.TargetKey)
    (marker : Depends.Addr) (defCtor : Bool) (fk : Nat) (cached : Bool)
    (ret : Depends.FactoryRet) (valMetaAsync valMeta : Option Depends.Addr)
    (ptrMetaSyncFallback : Option Depends.DependsPtrValue)
    (ha : ret.addr ≠ 0) :
    Depends.ResolveArgAsyncPlaceholderPtr tbl st ty target marker defCtor
        (some (Depends.MakeDependsPtrValueWithFactory fk cached ret)) valMetaAsync
        ptrMetaSyncFallback valMeta marker
      = Depends.ResolveArgPtr tbl st ty target marker defCtor
          (some (Depends.MakeDependsPtrValueWithFactory fk cached ret)) valMeta marker := by
  have hfac : (Depends.MakeDependsPtrValueWithFactory fk cached ret).factory ≠ none := by
    cases ret <;> simp [Depends.MakeDependsPtrValueWithFactory]
  have hp : (Depends.MakeDependsPtrValueWithFactory fk cached ret).ptr ≠ 0 := by
    cases ret <;> simpa [Depends.MakeDependsPtrValueWithFactory, Depends.FactoryRet.addr]
      using ha
  have hok := Depends.resolvePtrMetaW_ok tbl st ty target marker defCtor
    (Depends.MakeDependsPtrValueWithFactory fk cached ret) marker hfac hp
  have hsame : Depends.resolvePtrMetaWAsync tbl st ty target marker defCtor
      (Depends.MakeDependsPtrValueWithFactory fk cached ret) marker
    = Depends.resolvePtrMetaW tbl st ty target marker defCtor
        (Depends.MakeDependsPtrValueWithFactory fk cached ret) marker := rfl
  simp [Depends.ResolveArgAsyncPlaceholderPtr, Depends.TryResolveDefaultArgForParamPtrAsync,
    Depends.ResolveArgPtr, Depends.TryResolveDefaultArgForParamPtr,
    Depends.IsDependsPlaceholderPtr, hsame, hok]

/-- C6: for dependencies resolved from `Depends(factory)` metadata entries
and cached in one injected-call scope (fresh distinct slot keys, non-null
results): no object is destroyed while the scope runs, every object a
pointer-returning factory produced (owned) is destroyed exactly once — at the
point the scope's `InjectContextLease` is destroyed — and an object a
reference-returning factory produced (borrowed) is never destroyed by the DI
layer. -/
theorem depends_factory_ownership (es : List Depends.MetaEntry)
    (hkeys : (es.map (fun e => Depends.SlotKey.mk e.ty (some e.fk))).Nodup)
    (haddr : ∀ e ∈ es, e.ret.addr ≠ 0)
    (hnodup : (Depends.ownedAddrsOfEntries es).Nodup) :
    (Depends.runCacheOps [] (Depends.opsOfEntries es)).2 = [] ∧
    (∀ a, a ∈ Depends.ownedAddrsOfEntries es →
      (Depends.scopeDestroyTrace (Depends.opsOfEntries es)).count a = 1) ∧
    (∀ a, a ∉ Depends.ownedAddrsOfEntries es →
      (Depends.scopeDestroyTrace (Depends.opsOfEntries es)).count a = 0) := by
  have hkeys' : ((Depends.opsOfEntries es).map Depends.CacheOp.key).Nodup := by
    rw [Depends.opsOfEntries_keys]
    exact hkeys
  have hptr : ∀ op ∈ Depends.opsOfEntries es, op.ptr ≠ 0 := by
    intro op hop
    obtain ⟨e, he, hp⟩ := Depends.opsOfEntries_ptr es op hop
    rw [hp]
    exact haddr e he
  have hrun := Depends.runCacheOps_fresh (Depends.opsOfEntries es) []
    (fun _ _ => rfl) hkeys' hptr
  have htrace : Depends.scopeDestroyTrace (Depends.opsOfEntries es)
      = Depends.ownedAddrsOfEntries es := by
    simp [Depends.scopeDestroyTrace, hrun, Depends.destroy_slots_of_entries]
  refine ⟨by simp [hrun], ?_, ?_⟩
  · intro a ha
    rw [htrace]
    exact List.count_eq_one_of_mem hnodup ha
  · intro a ha
    rw [htrace]
    exact List.count_eq_zero.mpr ha

/-- Witness for C6: a scope resolving a pointer factory (object 3, owned) and
a reference factory (object 4, borrowed): 3 is destroyed exactly once, at
scope end; 4 is never destroyed. -/
theorem depends_factory_ownership_witness :
    (Depends.scopeDestroyTrace
        (Depends.opsOfEntries [⟨0, 6, true, .ptrRet 3⟩, ⟨1, 7, true, .refRet 4⟩])).count 3
      = 1 ∧
    (Depends.scopeDestroyTrace
        (Depends.opsOfEntries [⟨0, 6, true, .ptrRet 3⟩, ⟨1, 7, true, .refRet 4⟩])).count 4
      = 0 := by
  have h := depends_factory_ownership
    [⟨0, 6, true, .ptrRet 3⟩, ⟨1, 7, true, .refRet 4⟩]
    (by decide) (by decide) (by decide)
  exact ⟨h.2.1 3 (by decide), h.2.2 4 (by decide)⟩

/-- C9: `Task::Get` first schedules the task, then repeatedly runs one
scheduler step while the task is not done; it returns the task's value
exactly when the task completes along the pump trajectory, and it throws the
deadlock exception exactly when the per-thread scheduler queue drains before
the task is done; moreover `RunOne` reports failure precisely when it finds
the queue empty. -/
theorem task_get_sync_bridge {σ : Type} (sem : Task.CoroSem σ) (h fuel : Nat)
    (w : Task.SchedWorld σ) :
    Task.TaskGet sem h fuel w = Task.getLoop sem h fuel (Task.Schedule sem w h) ∧
    (∀ v, Task.TaskGet sem h fuel w = .ok v ↔
      ∃ k, k ≤ fuel ∧
        sem.handleDone ((Task.stepOne sem)^[k] (Task.Schedule sem w h)).heap h = true ∧
        v = sem.valueOf ((Task.stepOne sem)^[k] (Task.Schedule sem w h)).heap h ∧
        ∀ j < k,
          sem.handleDone ((Task.stepOne sem)^[j] (Task.Schedule sem w h)).heap h = false ∧
          ((Task.stepOne sem)^[j] (Task.Schedule sem w h)).queue.isEmpty = false) ∧
    (Task.TaskGet sem h fuel w = .deadlock ↔
      ∃ k, k ≤ fuel ∧
        sem.handleDone ((Task.stepOne sem)^[k] (Task.Schedule sem w h)).heap h = false ∧
        ((Task.stepOne sem)^[k] (Task.Schedule sem w h)).queue.isEmpty = true ∧
        ∀ j < k,
          sem.handleDone ((Task.stepOne sem)^[j] (Task.Schedule sem w h)).heap h = false ∧
          ((Task.stepOne sem)^[j] (Task.Schedule sem w h)).queue.isEmpty = false) ∧
    (∀ w' : Task.SchedWorld σ, (Task.RunOne sem w').1 = false ↔ w'.queue = []) :=
  ⟨rfl,
   fun v => Task.getLoop_ok_iff sem h fuel (Task.Schedule sem w h) v,
   Task.getLoop_deadlock_iff sem h fuel (Task.Schedule sem w h),
   fun w' => Task.runOne_false_iff_empty sem w'⟩

/-- Witness for C9: a task whose single resume completes it returns its value
42 after one scheduler step, and on an empty queue with the task never
finishing, `Get` throws the deadlock error. -/
theorem task_get_sync_bridge_witness :
    Task.TaskGet (σ := Bool)
        ⟨fun s _ => s, fun _ _ => (true, []), fun _ _ => 42⟩ 1 5 ⟨[], false⟩ = .ok 42 :=
  ((task_get_sync_bridge (σ := Bool)
    ⟨fun s _ => s, fun _ _ => (true, []), fun _ _ => 42⟩ 1 5 ⟨[], false⟩).2.1 42).mpr
    ⟨1, by decide, by decide, by decide, by decide⟩

/-- Witness for C8: at concrete inputs (empty registry and context, pointer
factory producing object 3) the async and sync resolvers agree. -/
theorem async_sync_resolution_equiv_witness :
    (Depends.FactoryRet.ptrRet 3).addr ≠ 0 ∧
    Depends.ResolveArgAsyncPlaceholderPtr (fun _ => none)
        ⟨fun _ => none, [], 200⟩ 0 (some 1) 100 true
        (some (Depends.MakeDependsPtrValueWithFactory 6 true (Depends.FactoryRet.ptrRet 3)))
        none none none 100
      = Depends.ResolveArgPtr (fun _ => none) ⟨fun _ => none, [], 200⟩ 0 (some 1) 100 true
          (some (Depends.MakeDependsPtrValueWithFactory 6 true (Depends.FactoryRet.ptrRet 3)))
          none 100 :=
  ⟨by decide,
   async_sync_resolution_equiv (fun _ => none) ⟨fun _ => none, [], 200⟩ 0 (some 1) 100 true
     6 true (Depends.FactoryRet.ptrRet 3) none none none (by decide)⟩

end CppBM
